import Mathlib

/-!
Verification of the ARTiculate gallery/CMS client.

The definitions below are a shallow embedding of the TypeScript sources:
the data model from the flat types file, the gallery filtering and tag
collection from Gallery.tsx, the viewer navigation and PDF rasterization
branch from ComicViewer.tsx, the shell's load and delete handlers from
App.tsx (and the alternative revision in the unnamed source part), and the
admin portal's publish and bulk-upload flows from AdminPortal.tsx.
Asynchronous backend calls are modelled by passing their results in
explicitly; each handler additionally returns the trace of backend calls
it issued, so that claims about which calls are (not) made can be stated.
-/

/-- The layoutsize field of a comic entry: small, medium or large. -/
inductive LayoutSize where
  | small
  | medium
  | large
deriving DecidableEq

/-- ComicEntry from the types file: id, title, ISO date, content URL,
optional thumbnail URL, MIME type, description, tags, optional owning
folder id, optional layout-size hint. -/
structure ComicEntry where
  id : String
  title : String
  date : String
  imageurl : String
  thumbnailurl : Option String
  mimetype : String
  description : String
  tags : List String
  folderid : Option String
  layoutsize : Option LayoutSize
deriving DecidableEq

/-- Folder from the types file: id, name, description, creation date. -/
structure Folder where
  id : String
  name : String
  description : String
  datecreated : String
deriving DecidableEq

/-! ## Gallery (Gallery.tsx) -/

/-- Character-wise lower-casing, the embedding of toLowerCase(). -/
def toLowerStr (s : String) : String :=
  String.mk (s.data.map Char.toLower)

/-- JS String.includes: substring containment, as a Bool. -/
def includesSub (s sub : String) : Bool :=
  decide (sub.data <:+: s.data)

/-- matchesFolder from Gallery.tsx: no active folder, or exact folder-id
equality. -/
def matchesFolder (activeFolderId : Option String) (c : ComicEntry) : Bool :=
  match activeFolderId with
  | none => true
  | some fid => c.folderid == some fid

/-- matchesSearch from Gallery.tsx: empty query, or a case-insensitive
substring match of the query against title or description. -/
def matchesSearch (searchQuery : String) (c : ComicEntry) : Bool :=
  searchQuery == "" ||
    includesSub (toLowerStr c.title) (toLowerStr searchQuery) ||
    includesSub (toLowerStr c.description) (toLowerStr searchQuery)

/-- matchesTag from Gallery.tsx: no selected tag, or exact membership in
the comic's tag list. -/
def matchesTag (selectedTag : Option String) (c : ComicEntry) : Bool :=
  match selectedTag with
  | none => true
  | some tag => c.tags.contains tag

/-- filteredComics from Gallery.tsx: the comics passing the conjunction
of the three filter predicates. -/
def filteredComics (comics : List ComicEntry) (activeFolderId : Option String)
    (searchQuery : String) (selectedTag : Option String) : List ComicEntry :=
  comics.filter fun c =>
    matchesFolder activeFolderId c && matchesSearch searchQuery c &&
      matchesTag selectedTag c

/-- Adding one tag to an accumulator, keeping the first occurrence only:
the embedding of Set.add on a JS Set (insertion order, duplicates dropped). -/
def insertTag (acc : List String) (t : String) : List String :=
  if t ∈ acc then acc else acc ++ [t]

/-- The tags of all comics accumulated into a JS Set, in insertion order. -/
def collectTags (comics : List ComicEntry) : List String :=
  comics.foldl (fun acc c => c.tags.foldl insertTag acc) []

/-- allTags from Gallery.tsx: Array.from(set).sort() — the duplicate-free
tag collection, sorted ascending. -/
def allTags (comics : List ComicEntry) : List String :=
  (collectTags comics).insertionSort (· ≤ ·)

theorem insertTag_nodup (acc : List String) (t : String) (h : acc.Nodup) :
    (insertTag acc t).Nodup := by
  unfold insertTag
  split
  · exact h
  · next hmem =>
    refine List.Nodup.append h (List.nodup_singleton t) ?_
    simpa using fun h' => hmem h'

theorem mem_insertTag (acc : List String) (t x : String) :
    x ∈ insertTag acc t ↔ x ∈ acc ∨ x = t := by
  unfold insertTag
  split
  · next hmem =>
    constructor
    · exact fun h => Or.inl h
    · rintro (h | rfl)
      · exact h
      · exact hmem
  · simp

theorem foldl_insertTag_nodup (ts acc : List String) (h : acc.Nodup) :
    (ts.foldl insertTag acc).Nodup := by
  induction ts generalizing acc with
  | nil => exact h
  | cons t ts ih => exact ih _ (insertTag_nodup acc t h)

theorem mem_foldl_insertTag (ts acc : List String) (x : String) :
    x ∈ ts.foldl insertTag acc ↔ x ∈ acc ∨ x ∈ ts := by
  induction ts generalizing acc with
  | nil => simp
  | cons t ts ih =>
    simp only [List.foldl_cons, ih, mem_insertTag, List.mem_cons]
    tauto

theorem collectTags_nodup (comics : List ComicEntry) :
    (collectTags comics).Nodup := by
  unfold collectTags
  generalize hacc : ([] : List String) = acc
  have hnd : acc.Nodup := by simp [← hacc]
  clear hacc
  induction comics generalizing acc with
  | nil => exact hnd
  | cons c cs ih => exact ih _ (foldl_insertTag_nodup _ _ hnd)

theorem mem_collectTags (comics : List ComicEntry) (x : String) :
    x ∈ collectTags comics ↔ ∃ c ∈ comics, x ∈ c.tags := by
  unfold collectTags
  have general : ∀ (cs : List ComicEntry) (acc : List String),
      x ∈ cs.foldl (fun acc c => c.tags.foldl insertTag acc) acc ↔
        x ∈ acc ∨ ∃ c ∈ cs, x ∈ c.tags := by
    intro cs
    induction cs with
    | nil => simp
    | cons c cs ih =>
      intro acc
      simp only [List.foldl_cons, ih, mem_foldl_insertTag, List.mem_cons]
      constructor
      · rintro ((h | h) | ⟨d, hd, hx⟩)
        · exact Or.inl h
        · exact Or.inr ⟨c, Or.inl rfl, h⟩
        · exact Or.inr ⟨d, Or.inr hd, hx⟩
      · rintro (h | ⟨d, (rfl | hd), hx⟩)
        · exact Or.inl (Or.inl h)
        · exact Or.inl (Or.inr hx)
        · exact Or.inr ⟨d, hd, hx⟩
  simpa using general comics []

/-- C9: the gallery's tag sidebar is built from allTags: it is
duplicate-free (so no duplicate tag button can ever appear, whatever the
comics list is), it contains exactly the union of all tags of all comics,
and it is sorted ascending. -/
theorem articulate_c9_allTags (comics : List ComicEntry) :
    (allTags comics).Nodup ∧
      (∀ t, t ∈ allTags comics ↔ ∃ c ∈ comics, t ∈ c.tags) ∧
      (allTags comics).Sorted (· ≤ ·) := by
  refine ⟨?_, ?_, ?_⟩
  · exact ((List.perm_insertionSort _ _).nodup_iff).mpr (collectTags_nodup comics)
  · intro t
    rw [allTags, List.mem_insertionSort, mem_collectTags]
  · exact List.sorted_insertionSort _ _

/-- C1: membership in the gallery's visible set is exactly the logical
AND of the active filter predicates — exact folder-id equality when a
folder is selected, case-insensitive substring match of the query against
title or description when the query is non-empty, exact tag membership
when a tag is selected; an inactive filter (none / empty query) constrains
nothing. -/
theorem articulate_c1_filter (comics : List ComicEntry)
    (activeFolderId : Option String) (searchQuery : String)
    (selectedTag : Option String) (c : ComicEntry) :
    c ∈ filteredComics comics activeFolderId searchQuery selectedTag ↔
      c ∈ comics ∧
        (∀ fid, activeFolderId = some fid → c.folderid = some fid) ∧
        (searchQuery ≠ "" →
          (toLowerStr searchQuery).data <:+: (toLowerStr c.title).data ∨
            (toLowerStr searchQuery).data <:+: (toLowerStr c.description).data) ∧
        (∀ tag, selectedTag = some tag → tag ∈ c.tags) := by
  simp only [filteredComics, List.mem_filter, Bool.and_eq_true]
  refine and_congr_right fun _ => ?_
  have hFolder : matchesFolder activeFolderId c = true ↔
      ∀ fid, activeFolderId = some fid → c.folderid = some fid := by
    cases activeFolderId with
    | none => simp [matchesFolder]
    | some fid => simp [matchesFolder]
  have hSearch : matchesSearch searchQuery c = true ↔
      (searchQuery ≠ "" →
        (toLowerStr searchQuery).data <:+: (toLowerStr c.title).data ∨
          (toLowerStr searchQuery).data <:+: (toLowerStr c.description).data) := by
    by_cases hq : searchQuery = ""
    · simp [matchesSearch, hq]
    · simp [matchesSearch, hq, includesSub]
  have hTag : matchesTag selectedTag c = true ↔
      ∀ tag, selectedTag = some tag → tag ∈ c.tags := by
    cases selectedTag with
    | none => simp [matchesTag]
    | some tag => simp [matchesTag]
  rw [← hFolder, ← hSearch, ← hTag]
  tauto

/-! ## Comic viewer (ComicViewer.tsx) -/

/-- The leading part of every canvas.toDataURL output in the PDF branch.
Modelled library behavior: canvas.toDataURL with the image/jpeg type
returns a JPEG data URL. -/
def jpegDataUrlHead : String := "data:image/jpeg;base64,"

/-- An abstract rasterized PDF page: the payload the canvas pipeline
(white fill, then page.render, then JPEG encoding) produces for it. -/
structure PdfPage where
  content : String
deriving DecidableEq

/-- One iteration of renderPdfChronicle's page loop: white-filled canvas,
page render, canvas.toDataURL, producing a JPEG data URL. -/
def renderPageToDataUrl (p : PdfPage) : String :=
  jpegDataUrlHead ++ p.content

/-- renderPdfChronicle from ComicViewer.tsx: every page of the document
rasterized to a JPEG data URL, in page order. -/
def renderPdfChronicle (doc : List PdfPage) : List String :=
  doc.map renderPageToDataUrl

/-- The src attributes of the img elements in the viewer's content area:
in the PDF branch, the rasterized pages (none while still loading);
otherwise a single img with the entry's own content URL. -/
def viewerImgSources (c : ComicEntry) (pdfPages : List String)
    (loadingPdf : Bool) : List String :=
  if c.mimetype = "application/pdf" then
    (if loadingPdf then [] else pdfPages)
  else
    [c.imageurl]

/-- JS Array.findIndex: index of the first match, -1 when absent. -/
def findIndexJs (p : ComicEntry → Bool) : List ComicEntry → Int
  | [] => -1
  | c :: cs =>
    if p c then 0
    else
      let r := findIndexJs p cs
      if r = -1 then -1 else r + 1

/-- currentIndex from ComicViewer.tsx: comics.findIndex on id equality. -/
def currentIndex (comics : List ComicEntry) (cid : String) : Int :=
  findIndexJs (fun c => c.id == cid) comics

/-- prevComic from ComicViewer.tsx: the entry one position later in the
loaded (date-descending) list, when there is one. -/
def prevComicOf (comics : List ComicEntry) (c : ComicEntry) : Option ComicEntry :=
  let i := currentIndex comics c.id
  if i < (comics.length : Int) - 1 then comics[(i + 1).toNat]? else none

/-- nextComic from ComicViewer.tsx: the entry one position earlier in the
loaded (date-descending) list, when there is one. -/
def nextComicOf (comics : List ComicEntry) (c : ComicEntry) : Option ComicEntry :=
  let i := currentIndex comics c.id
  if i > 0 then comics[(i - 1).toNat]? else none

theorem findIndexJs_nonneg_of_found (p : ComicEntry → Bool)
    (l : List ComicEntry) (h : findIndexJs p l ≠ -1) : 0 ≤ findIndexJs p l := by
  induction l with
  | nil => simp [findIndexJs] at h
  | cons c cs ih =>
    by_cases hp : p c
    · simp [findIndexJs, hp]
    · simp only [findIndexJs, hp, if_false] at h ⊢
      by_cases hr : findIndexJs p cs = -1
      · simp [hr] at h
      · have := ih hr
        simp only [hr, if_false]
        omega

theorem findIndexJs_get (l : List ComicEntry)
    (hnd : (l.map (fun c => c.id)).Nodup) (i : Fin l.length) :
    findIndexJs (fun x => x.id == (l.get i).id) l = (i : Int) := by
  induction l with
  | nil => exact absurd i.isLt (by simp)
  | cons c cs ih =>
    rcases i with ⟨iv, hi⟩
    cases iv with
    | zero => simp [findIndexJs]
    | succ j =>
      have hj : j < cs.length := by simpa using hi
      have hget : (c :: cs).get ⟨j + 1, hi⟩ = cs.get ⟨j, hj⟩ := rfl
      have hnd' : (cs.map (fun c => c.id)).Nodup := (List.nodup_cons.mp hnd).2
      have hne : ¬(c.id == (cs.get ⟨j, hj⟩).id) = true := by
        intro hb
        have heq : c.id = (cs.get ⟨j, hj⟩).id := by simpa using hb
        have hmem : (cs.get ⟨j, hj⟩).id ∈ cs.map (fun c => c.id) :=
          List.mem_map_of_mem _ (cs.get_mem j hj)
        have hmem' : c.id ∈ cs.map (fun c => c.id) := by rw [heq]; exact hmem
        exact (List.nodup_cons.mp hnd).1 hmem'
      have hrec := ih hnd' ⟨j, hj⟩
      rw [hget]
      simp only [findIndexJs, hne, if_false]
      rw [hrec]
      have : ((j : Int)) ≠ -1 := by omega
      simp only [this, if_false]
      push_cast
      ring

/-- C5: in the loaded list, sorted by date strictly descending with
distinct ids, the prev control from the entry at position i goes exactly
to the adjacent entry at position i+1, whose date is strictly smaller;
prev yields no target (so the control is disabled) at the oldest entry,
and next yields no target at the newest entry. -/
theorem articulate_c5_navigation (comics : List ComicEntry)
    (hnd : (comics.map (fun c => c.id)).Nodup)
    (hsort : comics.Pairwise (fun a b => b.date < a.date)) :
    (∀ (i : Nat) (hi : i < comics.length) (hi1 : i + 1 < comics.length),
        prevComicOf comics (comics.get ⟨i, hi⟩) =
            some (comics.get ⟨i + 1, hi1⟩) ∧
          (comics.get ⟨i + 1, hi1⟩).date < (comics.get ⟨i, hi⟩).date) ∧
      (∀ h : comics ≠ [], prevComicOf comics (comics.getLast h) = none) ∧
      (∀ h : 0 < comics.length, nextComicOf comics (comics.get ⟨0, h⟩) = none) := by
  refine ⟨?_, ?_, ?_⟩
  · intro i hi hi1
    have hidx := findIndexJs_get comics hnd ⟨i, hi⟩
    constructor
    · unfold prevComicOf currentIndex
      rw [hidx]
      rw [if_pos (by push_cast; omega)]
      have harith : ((i : Int) + 1).toNat = i + 1 := by omega
      rw [harith, List.getElem?_eq_getElem hi1]
      simp [List.get_eq_getElem]
    · have hpair := (List.pairwise_iff_get.mp hsort) ⟨i, hi⟩ ⟨i + 1, hi1⟩
        (by simp [Fin.lt_def])
      exact hpair
  · intro h
    have hlen : 0 < comics.length := List.length_pos.mpr h
    have hlast : comics.getLast h = comics.get ⟨comics.length - 1, by omega⟩ :=
      List.getLast_eq_get comics h
    rw [hlast]
    have hidx := findIndexJs_get comics hnd ⟨comics.length - 1, by omega⟩
    unfold prevComicOf currentIndex
    rw [hidx]
    rw [if_neg (by push_cast; omega)]
  · intro h
    have hidx := findIndexJs_get comics hnd ⟨0, h⟩
    unfold nextComicOf currentIndex
    rw [hidx]
    rw [if_neg (by simp)]

/-- C4: for a PDF entry, the viewer's content area never contains an img
whose src is the entry's raw content URL (which is not a JPEG data URL);
in the PDF branch every rendered img src is a rasterized page produced by
the canvas pipeline, that is, a JPEG data URL. -/
theorem articulate_c4_pdf_raster (c : ComicEntry) (doc : List PdfPage)
    (pdfPages : List String) (loadingPdf : Bool)
    (hmime : c.mimetype = "application/pdf")
    (hpages : pdfPages = [] ∨ pdfPages = renderPdfChronicle doc)
    (hraw : ∀ p, c.imageurl ≠ jpegDataUrlHead ++ p) :
    c.imageurl ∉ viewerImgSources c pdfPages loadingPdf ∧
      ∀ s ∈ viewerImgSources c pdfPages loadingPdf,
        ∃ p, s = jpegDataUrlHead ++ p := by
  unfold viewerImgSources
  rw [if_pos hmime]
  cases loadingPdf with
  | true => simp
  | false =>
    simp only [Bool.false_eq_true, if_false]
    rcases hpages with rfl | rfl
    · simp
    · constructor
      · intro hmem
        obtain ⟨page, _, hpe⟩ := List.mem_map.mp hmem
        exact hraw page.content (by rw [← hpe]; rfl)
      · intro s hs
        obtain ⟨page, _, rfl⟩ := List.mem_map.mp hs
        exact ⟨page.content, rfl⟩

/-! ## Application shell (App.tsx and the unnamed alternative revision) -/

/-- The shell's in-memory source of truth: the two locally cached lists. -/
structure AppState where
  comics : List ComicEntry
  folders : List Folder
deriving DecidableEq

/-- A backend operation reaching the external service, for call traces. -/
inductive BackendCall where
  | foldersSelect
  | comicsSelect
  | comicsDeleteRow (id : String)
  | storageRemove (fileName : String)
  | foldersDeleteRow (id : String)
  | foldersInsert (name : String)
  | storageUpload (fileName : String)
  | comicsInsert
  | comicsUpdate (id : String)
deriving DecidableEq

/-- Modelled from the spec: lib/supabase.ts is not under src. Per the
spec's external-interface section, the client is configured exactly when
both the backend endpoint URL and the public API key are present. -/
def isSupabaseConfigured (url apiKey : Option String) : Bool :=
  url.isSome && apiKey.isSome

/-- loadData from App.tsx: guarded by the configuration flag; folders
query first (thrown error caught, logged, state untouched), then comics
query (thrown error caught after folders were already stored). The query
results are passed in explicitly; the second component is the trace of
queries issued. -/
def loadData (configured : Bool) (st : AppState)
    (foldersRes : Except String (List Folder))
    (comicsRes : Except String (List ComicEntry)) :
    AppState × List BackendCall :=
  if !configured then (st, [])
  else
    match foldersRes with
    | .error _ => (st, [.foldersSelect])
    | .ok fs =>
      let st1 := { st with folders := fs }
      match comicsRes with
      | .error _ => (st1, [.foldersSelect, .comicsSelect])
      | .ok cs => ({ st1 with comics := cs }, [.foldersSelect, .comicsSelect])

/-- handleDeleteComic from App.tsx: guarded by configuration and local
presence; database delete first; on its success, a storage removal when
the content URL is a supabase.co URL with a non-empty trailing file name
(a rejection there is caught and aborts the local update); only after all
awaited calls succeed is the comic filtered out of the local list. -/
def handleDeleteComic (configured : Bool) (comics : List ComicEntry)
    (id : String) (dbRes : Except String Unit)
    (storageRes : Except String Unit) :
    List ComicEntry × List BackendCall :=
  if !configured then (comics, [])
  else
    match comics.find? (fun c => c.id == id) with
    | none => (comics, [])
    | some target =>
      match dbRes with
      | .error _ => (comics, [.comicsDeleteRow id])
      | .ok _ =>
        if includesSub target.imageurl "supabase.co" then
          let fileName := (target.imageurl.splitOn "/").getLast!
          if fileName ≠ "" then
            match storageRes with
            | .error _ => (comics, [.comicsDeleteRow id, .storageRemove fileName])
            | .ok _ =>
              (comics.filter (fun c => !(c.id == id)),
                [.comicsDeleteRow id, .storageRemove fileName])
          else
            (comics.filter (fun c => !(c.id == id)), [.comicsDeleteRow id])
        else
          (comics.filter (fun c => !(c.id == id)), [.comicsDeleteRow id])

/-- The per-comic update applied after a folder deletion in App.tsx: a
comic in the deleted folder has its folder reference cleared, everything
else is kept. -/
def clearFolderRef (fid : String) (c : ComicEntry) : ComicEntry :=
  if c.folderid = some fid then { c with folderid := none } else c

/-- handleDeleteFolder from App.tsx: on database success, the folder is
filtered out of the folder list and every comic of that folder becomes
standalone; on error the caught handler leaves both lists unchanged. -/
def handleDeleteFolder (configured : Bool) (folders : List Folder)
    (comics : List ComicEntry) (id : String) (dbRes : Except String Unit) :
    (List Folder × List ComicEntry) × List BackendCall :=
  if !configured then ((folders, comics), [])
  else
    match dbRes with
    | .error _ => ((folders, comics), [.foldersDeleteRow id])
    | .ok _ =>
      ((folders.filter (fun f => !(f.id == id)),
        comics.map (clearFolderRef id)), [.foldersDeleteRow id])

/-- onDeleteFolder of the unnamed alternative shell revision: a purely
local filter of the folder list; the comics list is left untouched, so
comics of the deleted folder keep their (now dangling) folder id. -/
def onDeleteFolderPart000 (folders : List Folder) (comics : List ComicEntry)
    (id : String) : List Folder × List ComicEntry :=
  (folders.filter (fun f => !(f.id == id)), comics)

/-- The two top-level screens a shell revision can choose between. -/
inductive Screen where
  | configRequired
  | shell
deriving DecidableEq

/-- The unnamed shell revision: an unconfigured client short-circuits to
the blocking configuration-required screen. -/
def appRenderPart000 (configured : Bool) : Screen :=
  if configured then Screen.shell else Screen.configRequired

/-- The App.tsx shell revision: no configuration guard around the render;
the normal shell is always produced. -/
def appRenderMain (_configured : Bool) : Screen :=
  Screen.shell

/-- Sample folder used in concrete counterexamples and witnesses. -/
def sampleFolder : Folder :=
  { id := "f1", name := "Issue 1", description := "", datecreated := "2024-01-01" }

/-- Sample comic (a member of sampleFolder) used in concrete
counterexamples and witnesses. -/
def sampleComic : ComicEntry :=
  { id := "c1", title := "Cover", date := "2024-02-01"
    imageurl := "https://proj.supabase.co/storage/v1/object/public/comics/1-main.png"
    thumbnailurl := none, mimetype := "image/png", description := "first"
    tags := ["ink"], folderid := some "f1", layoutsize := some LayoutSize.medium }

/-- C7 counterexample: when the folders query succeeds and the comics
query fails, the caught failure leaves the already-stored folders list
non-empty — not the empty state the claim demands for every load failure. -/
theorem articulate_c7_counterexample :
    (loadData true ⟨[], []⟩ (Except.ok [sampleFolder])
        (Except.error "network")).1.folders ≠ [] := by
  simp [loadData]

/-- C7 amended: from the initial empty state, a folders-query failure is
caught and leaves both lists empty; a comics-query failure is caught and
leaves the comics list empty but the folders list already populated with
the fetched folders. -/
theorem articulate_c7_load_failure (fs : List Folder)
    (e e' : String) (cres : Except String (List ComicEntry)) :
    loadData true ⟨[], []⟩ (Except.error e) cres =
        (⟨[], []⟩, [BackendCall.foldersSelect]) ∧
      loadData true ⟨[], []⟩ (Except.ok fs) (Except.error e') =
        (⟨[], fs⟩, [BackendCall.foldersSelect, BackendCall.comicsSelect]) := by
  constructor <;> simp [loadData]

/-- C8 counterexample: in the App.tsx shell revision there is no
configuration guard around the render — with the client unconfigured
(no URL, no key) it still renders the normal shell, not the blocking
configuration-required screen. -/
theorem articulate_c8_counterexample :
    appRenderMain (isSupabaseConfigured none none) ≠ Screen.configRequired := by
  decide

/-- C8 amended: the client is unconfigured exactly when the URL or the
key is absent; an unconfigured client issues no backend call from the
data load or the delete handlers and leaves local state untouched; the
unnamed shell revision renders the blocking configuration-required
screen, while the App.tsx revision renders the normal shell. -/
theorem articulate_c8_config (url apiKey : Option String) :
    (isSupabaseConfigured url apiKey = false ↔ url = none ∨ apiKey = none) ∧
      (∀ st fres cres, loadData false st fres cres = (st, [])) ∧
      (∀ comics id dres sres,
        handleDeleteComic false comics id dres sres = (comics, [])) ∧
      (∀ folders comics id dres,
        handleDeleteFolder false folders comics id dres =
          ((folders, comics), [])) ∧
      appRenderPart000 false = Screen.configRequired ∧
      appRenderMain false = Screen.shell := by
  refine ⟨?_, ?_, ?_, ?_, rfl, rfl⟩
  · cases url <;> cases apiKey <;> simp [isSupabaseConfigured]
  · intro st fres cres; simp [loadData]
  · intro comics id dres sres; simp [handleDeleteComic]
  · intro folders comics id dres; simp [handleDeleteFolder]

/-- C6: with the comic present locally, handleDeleteComic issues the
database delete as its first backend call; when the database delete
fails, the local list is untouched; in every case the local list is
either untouched or — and then only with the database delete succeeded —
exactly that comic is filtered out. -/
theorem articulate_c6_delete_comic (comics : List ComicEntry) (id : String)
    (target : ComicEntry)
    (hfind : comics.find? (fun c => c.id == id) = some target) :
    (∀ e sres, handleDeleteComic true comics id (Except.error e) sres =
        (comics, [BackendCall.comicsDeleteRow id])) ∧
      (∀ dbRes sres, (handleDeleteComic true comics id dbRes sres).2.head? =
        some (BackendCall.comicsDeleteRow id)) ∧
      (∀ dbRes sres,
        (handleDeleteComic true comics id dbRes sres).1 = comics ∨
          (dbRes = Except.ok () ∧
            (handleDeleteComic true comics id dbRes sres).1 =
              comics.filter (fun c => !(c.id == id)))) := by
  refine ⟨?_, ?_, ?_⟩
  · intro e sres
    simp [handleDeleteComic, hfind]
  · intro dbRes sres
    cases dbRes with
    | error e => simp [handleDeleteComic, hfind]
    | ok u =>
      by_cases h1 : includesSub target.imageurl "supabase.co" = true
      · by_cases h2 : (target.imageurl.splitOn "/").getLast! = ""
        · simp [handleDeleteComic, hfind, h1, h2]
        · cases sres <;> simp [handleDeleteComic, hfind, h1, h2]
      · simp [handleDeleteComic, hfind, h1]
  · intro dbRes sres
    cases dbRes with
    | error e => left; simp [handleDeleteComic, hfind]
    | ok u =>
      by_cases h1 : includesSub target.imageurl "supabase.co" = true
      · by_cases h2 : (target.imageurl.splitOn "/").getLast! = ""
        · right; refine ⟨rfl, ?_⟩; simp [handleDeleteComic, hfind, h1, h2]
        · cases sres with
          | error e' => left; simp [handleDeleteComic, hfind, h1, h2]
          | ok u' => right; refine ⟨rfl, ?_⟩; simp [handleDeleteComic, hfind, h1, h2]
      · right; refine ⟨rfl, ?_⟩; simp [handleDeleteComic, hfind, h1]

/-- C3 counterexample: in the unnamed shell revision, deleting a folder
leaves the comics list untouched, so a comic of the deleted folder keeps
its now-dangling folder id — its folder reference is not cleared, against
the claim's clearing clause. -/
theorem articulate_c3_counterexample :
    ∃ c ∈ (onDeleteFolderPart000 [sampleFolder] [sampleComic] "f1").2,
      c.folderid = some "f1" := by
  exact ⟨sampleComic, by simp [onDeleteFolderPart000], rfl⟩

/-- C3 amended: in App.tsx, a successful folder deletion removes exactly
that folder from the folder list, removes no comic, clears the folder
reference of exactly the comics of that folder and changes no other
field of any comic; a failed deletion changes nothing. In the unnamed
shell revision, the folder is filtered out of the folder list and the
comics list is left entirely unchanged (dangling references remain). -/
theorem articulate_c3_delete_folder (folders : List Folder)
    (comics : List ComicEntry) (id : String) :
    (∀ f, f ∈ (handleDeleteFolder true folders comics id (Except.ok ())).1.1 ↔
      f ∈ folders ∧ f.id ≠ id) ∧
      ((handleDeleteFolder true folders comics id (Except.ok ())).1.2).length =
        comics.length ∧
      (handleDeleteFolder true folders comics id (Except.ok ())).1.2 =
        comics.map (clearFolderRef id) ∧
      (∀ c, (clearFolderRef id c).id = c.id ∧
        (clearFolderRef id c).title = c.title ∧
        (clearFolderRef id c).date = c.date ∧
        (clearFolderRef id c).imageurl = c.imageurl ∧
        (clearFolderRef id c).thumbnailurl = c.thumbnailurl ∧
        (clearFolderRef id c).mimetype = c.mimetype ∧
        (clearFolderRef id c).description = c.description ∧
        (clearFolderRef id c).tags = c.tags ∧
        (clearFolderRef id c).layoutsize = c.layoutsize ∧
        (clearFolderRef id c).folderid =
          (if c.folderid = some id then none else c.folderid)) ∧
      (∀ e, handleDeleteFolder true folders comics id (Except.error e) =
        ((folders, comics), [BackendCall.foldersDeleteRow id])) ∧
      (onDeleteFolderPart000 folders comics id).2 = comics ∧
      (∀ f, f ∈ (onDeleteFolderPart000 folders comics id).1 ↔
        f ∈ folders ∧ f.id ≠ id) := by
  refine ⟨?_, ?_, ?_, ?_, ?_, rfl, ?_⟩
  · intro f
    simp [handleDeleteFolder, List.mem_filter]
  · simp [handleDeleteFolder]
  · simp [handleDeleteFolder]
  · intro c
    unfold clearFolderRef
    by_cases h : c.folderid = some id <;> simp [h]
  · intro e
    simp [handleDeleteFolder]
  · intro f
    simp [onDeleteFolderPart000, List.mem_filter]

/-! ## Admin portal (AdminPortal.tsx) -/

/-- A selected browser file: name and MIME type. -/
structure FileObj where
  name : String
  mimetype : String
deriving DecidableEq

/-- The publish form state of AdminPortal.tsx that handlePublish reads. -/
structure PublishForm where
  newTitle : String
  newDesc : String
  newTags : String
  selectedFolder : String
  isCreatingNewFolder : Bool
  newFolderName : String
  layoutSize : LayoutSize
  fileObject : Option FileObj
  editModeId : Option String
deriving DecidableEq

/-- The backend responses the publish sequence would receive, passed in
explicitly: inline folder insert, storage upload, and the comics-table
write. tempId stands for the Date.now() stamp used in file names. -/
structure PublishEnv where
  tempId : String
  folderInsertRes : Except String Folder
  uploadRes : Except String Unit
  dbRes : Except String ComicEntry

/-- The observable outcome of one handlePublish run. -/
inductive PublishOutcome where
  | validationBlocked
  | published (entry : ComicEntry)
  | failed (msg : String)
deriving DecidableEq

/-- The tag parsing of the publish payload: split on commas, trim, drop
empties. -/
def splitTags (s : String) : List String :=
  ((s.splitOn ",").map (fun t => t.trim)).filter (fun t => t ≠ "")

/-- The database step of handlePublish: update when in edit mode, insert
otherwise; an error becomes the caught error outcome. -/
def publishDb (form : PublishForm) (env : PublishEnv)
    (calls : List BackendCall) : PublishOutcome × List BackendCall :=
  let dbCall := match form.editModeId with
    | some eid => BackendCall.comicsUpdate eid
    | none => BackendCall.comicsInsert
  match env.dbRes with
  | .error e => (.failed e, calls ++ [dbCall])
  | .ok entry => (.published entry, calls ++ [dbCall])

/-- The upload step of handlePublish: when a file is selected it is
uploaded under tempId-main.ext first; an upload error is caught and ends
the run; otherwise (or with no file, in edit mode) the database step
follows. -/
def publishUpload (form : PublishForm) (env : PublishEnv)
    (calls : List BackendCall) : PublishOutcome × List BackendCall :=
  match form.fileObject with
  | some file =>
    let ext := (file.name.splitOn ".").getLast!
    let fileName := env.tempId ++ "-main." ++ ext
    match env.uploadRes with
    | .error e => (.failed e, calls ++ [BackendCall.storageUpload fileName])
    | .ok _ => publishDb form env (calls ++ [BackendCall.storageUpload fileName])
  | none => publishDb form env calls

/-- handlePublish from AdminPortal.tsx: the local validation guard (a
title is required, and a file is required unless in edit mode) blocks the
run with no backend call; otherwise the sequence runs: optional inline
folder insert, optional file upload, then the database write. -/
def handlePublish (form : PublishForm) (env : PublishEnv) :
    PublishOutcome × List BackendCall :=
  if form.newTitle = "" ∨ (form.fileObject = none ∧ form.editModeId = none) then
    (.validationBlocked, [])
  else
    if form.isCreatingNewFolder ∧ form.newFolderName ≠ "" then
      match env.folderInsertRes with
      | .error e => (.failed e, [BackendCall.foldersInsert form.newFolderName])
      | .ok _ => publishUpload form env [BackendCall.foldersInsert form.newFolderName]
    else
      publishUpload form env []

/-- C2: an empty title, or no selected file outside edit mode, blocks the
submission locally — the outcome is the validation error and the backend
call trace is empty; any form passing the guard is never blocked and
always issues at least one backend call. -/
theorem articulate_c2_publish_validation (form : PublishForm)
    (env : PublishEnv)
    (hblock : form.newTitle = "" ∨
      (form.fileObject = none ∧ form.editModeId = none)) :
    handlePublish form env = (PublishOutcome.validationBlocked, []) ∧
      ∀ form2 : PublishForm, form2.newTitle ≠ "" →
        (form2.fileObject ≠ none ∨ form2.editModeId ≠ none) →
        (handlePublish form2 env).1 ≠ PublishOutcome.validationBlocked ∧
          (handlePublish form2 env).2 ≠ [] := by
  constructor
  · simp [handlePublish, hblock]
  · intro form2 htitle hfile
    have hguard : ¬(form2.newTitle = "" ∨
        (form2.fileObject = none ∧ form2.editModeId = none)) := by
      push_neg
      refine ⟨htitle, ?_⟩
      intro hnone
      rcases hfile with h | h
      · exact absurd hnone h
      · intro h2; exact h h2
    have hup : ∀ calls, (publishUpload form2 env calls).1 ≠
        PublishOutcome.validationBlocked ∧
        (publishUpload form2 env calls).2.length ≥ calls.length + 1 := by
      intro calls
      unfold publishUpload publishDb
      cases hf : form2.fileObject with
      | none =>
        cases env.dbRes <;> cases form2.editModeId <;> simp
      | some file =>
        cases env.uploadRes with
        | error e => simp
        | ok u => cases env.dbRes <;> cases form2.editModeId <;> simp
    unfold handlePublish
    rw [if_neg hguard]
    split
    · cases hres : env.folderInsertRes with
      | error e => simp
      | ok fld =>
        obtain ⟨h1, h2⟩ := hup [BackendCall.foldersInsert form2.newFolderName]
        exact ⟨h1, by intro hnil; rw [hnil] at h2; simp at h2⟩
    · obtain ⟨h1, h2⟩ := hup []
      exact ⟨h1, by intro hnil; rw [hnil] at h2; simp at h2⟩

/-- The outcome of one bulk-upload iteration: the storage upload errored
(the item is skipped with continue), the database insert errored or
returned no row (no local add), an exception was thrown and caught, or
the insert succeeded returning the created entry. -/
inductive ItemOutcome where
  | storageFail
  | dbFail
  | thrownErr
  | ok (entry : ComicEntry)
deriving DecidableEq

/-- The step indicator of AdminPortal.tsx. -/
inductive PublishStep where
  | idle
  | uploadingFile
  | uploadingThumb
  | savingDb
  | success
  | error
  | batchProcessing
deriving DecidableEq

/-- The for-loop of handleBulkUpload: every file is visited in order
whatever the outcomes; only a successful insert prepends its created
entry to the local list (onAdd of App.tsx). Returns the visit trace and
the final local list. -/
def bulkLoop : List (FileObj × ItemOutcome) → List ComicEntry →
    List FileObj × List ComicEntry
  | [], comics => ([], comics)
  | (f, o) :: rest, comics =>
    let comics' := match o with
      | ItemOutcome.ok e => e :: comics
      | _ => comics
    let r := bulkLoop rest comics'
    (f :: r.1, r.2)

/-- handleBulkUpload from AdminPortal.tsx: an empty selection returns at
once (step stays idle); otherwise the loop runs over every file and the
step indicator always ends at success. -/
def handleBulkUpload (items : List (FileObj × ItemOutcome))
    (comics : List ComicEntry) :
    List FileObj × List ComicEntry × PublishStep :=
  if items.isEmpty then ([], comics, PublishStep.idle)
  else
    let r := bulkLoop items comics
    (r.1, r.2, PublishStep.success)

/-- The entries whose storage upload and database insert both succeeded,
in file order. -/
def bulkSuccesses (items : List (FileObj × ItemOutcome)) : List ComicEntry :=
  items.filterMap fun fi => match fi.2 with
    | ItemOutcome.ok e => some e
    | _ => none

theorem bulkLoop_spec (items : List (FileObj × ItemOutcome))
    (comics : List ComicEntry) :
    bulkLoop items comics =
      (items.map Prod.fst, (bulkSuccesses items).reverse ++ comics) := by
  induction items generalizing comics with
  | nil => simp [bulkLoop, bulkSuccesses]
  | cons fi rest ih =>
    rcases fi with ⟨f, o⟩
    cases o with
    | ok e => simp [bulkLoop, bulkSuccesses, ih, List.filterMap_cons]
    | storageFail => simp [bulkLoop, bulkSuccesses, ih, List.filterMap_cons]
    | dbFail => simp [bulkLoop, bulkSuccesses, ih, List.filterMap_cons]
    | thrownErr => simp [bulkLoop, bulkSuccesses, ih, List.filterMap_cons]

/-- C10: for a non-empty batch, no per-file failure aborts the loop —
the visit trace is all files in order; the final local list is exactly
the successfully inserted entries merged (each prepended, so in reverse
batch order) onto the previous list; and the run always ends in the
success step. -/
theorem articulate_c10_bulk_upload (items : List (FileObj × ItemOutcome))
    (comics : List ComicEntry) (hne : items ≠ []) :
    (handleBulkUpload items comics).1 = items.map Prod.fst ∧
      (handleBulkUpload items comics).2.1 =
        (bulkSuccesses items).reverse ++ comics ∧
      (handleBulkUpload items comics).2.2 = PublishStep.success := by
  have hemp : items.isEmpty = false := by
    cases items with
    | nil => exact absurd rfl hne
    | cons a l => rfl
  unfold handleBulkUpload
  rw [hemp]
  simp [bulkLoop_spec]

/-! ## Concrete witnesses -/

/-- A second sample comic, newer than sampleComic, for navigation. -/
def sampleNewComic : ComicEntry :=
  { id := "c2", title := "Sequel", date := "2024-03-01"
    imageurl := "https://proj.supabase.co/storage/v1/object/public/comics/2-main.png"
    thumbnailurl := none, mimetype := "image/png", description := "second"
    tags := ["wash"], folderid := none, layoutsize := none }

/-- A sample PDF entry whose content URL is an https URL. -/
def samplePdfComic : ComicEntry :=
  { id := "c3", title := "Chronicle", date := "2024-04-01"
    imageurl := "https://proj.supabase.co/storage/v1/object/public/comics/3-main.pdf"
    thumbnailurl := some "https://proj.supabase.co/storage/v1/object/public/comics/3-thumb.jpg"
    mimetype := "application/pdf", description := "third"
    tags := [], folderid := none, layoutsize := none }

/-- A publish form blocked by the validation guard: empty title. -/
def blockedForm : PublishForm :=
  { newTitle := "", newDesc := "", newTags := "", selectedFolder := ""
    isCreatingNewFolder := false, newFolderName := ""
    layoutSize := LayoutSize.medium, fileObject := none, editModeId := none }

/-- A backend-response environment for publish runs. -/
def sampleEnv : PublishEnv :=
  { tempId := "1700000000000"
    folderInsertRes := Except.ok sampleFolder
    uploadRes := Except.ok ()
    dbRes := Except.ok sampleComic }

/-- C1 witness: a comic matching all three active filters is visible. -/
theorem articulate_c1_witness :
    sampleComic ∈ filteredComics [sampleComic] (some "f1") "cov" (some "ink") := by
  refine (articulate_c1_filter [sampleComic] (some "f1") "cov" (some "ink")
    sampleComic).mpr ⟨by decide, ?_, ?_, ?_⟩
  · intro fid h
    cases h
    decide
  · intro _
    left
    decide
  · intro t h
    cases h
    decide

/-- C2 witness: the empty-title form is blocked with no backend call. -/
theorem articulate_c2_witness :
    handlePublish blockedForm sampleEnv = (PublishOutcome.validationBlocked, []) :=
  (articulate_c2_publish_validation blockedForm sampleEnv (Or.inl rfl)).1

/-- C3 witness: on success App.tsx clears the deleted folder's reference
on its comic, keeping the rest of the record. -/
theorem articulate_c3_witness :
    (handleDeleteFolder true [sampleFolder] [sampleComic] "f1"
        (Except.ok ())).1.2 = [{ sampleComic with folderid := none }] := by
  have h := (articulate_c3_delete_folder [sampleFolder] [sampleComic] "f1").2.2.1
  rw [h]
  decide

/-- C4 witness: a PDF entry's raw https URL is not among the viewer's
rendered image sources. -/
theorem articulate_c4_witness :
    samplePdfComic.imageurl ∉
      viewerImgSources samplePdfComic
        (renderPdfChronicle [PdfPage.mk "AA"]) false := by
  refine (articulate_c4_pdf_raster samplePdfComic [PdfPage.mk "AA"]
    (renderPdfChronicle [PdfPage.mk "AA"]) false rfl (Or.inr rfl) ?_).1
  intro p hp
  have hd := congrArg String.data hp
  rw [String.data_append] at hd
  have h0 := congrArg List.head? hd
  have h1 : (jpegDataUrlHead.data ++ p.data).head? = some 'd' := rfl
  have h2 : samplePdfComic.imageurl.data.head? = some 'h' := rfl
  rw [h1, h2] at h0
  simp at h0

/-- C5 witness: in a two-entry date-descending list, prev from the newer
entry reaches the older one; prev is disabled at the older entry and
next at the newer one. -/
theorem articulate_c5_witness :
    prevComicOf [sampleNewComic, sampleComic] sampleNewComic =
        some sampleComic ∧
      prevComicOf [sampleNewComic, sampleComic] sampleComic = none ∧
      nextComicOf [sampleNewComic, sampleComic] sampleNewComic = none := by
  have hsort : List.Pairwise (fun a b : ComicEntry => b.date < a.date)
      [sampleNewComic, sampleComic] := by
    simp only [List.pairwise_cons, List.mem_singleton, List.not_mem_nil,
      forall_eq, and_true, IsEmpty.forall_iff, implies_true,
      List.Pairwise.nil]
    rw [String.lt_iff_toList_lt]
    decide
  have h := articulate_c5_navigation [sampleNewComic, sampleComic]
    (by decide) hsort
  exact ⟨(h.1 0 (by decide) (by decide)).1, h.2.1 (by decide), h.2.2 (by decide)⟩

/-- C6 witness: a failed database delete leaves the one-comic list
unchanged after the single delete call. -/
theorem articulate_c6_witness :
    handleDeleteComic true [sampleComic] "c1" (Except.error "boom")
        (Except.ok ()) =
      ([sampleComic], [BackendCall.comicsDeleteRow "c1"]) :=
  (articulate_c6_delete_comic [sampleComic] "c1" sampleComic (by decide)).1
    "boom" (Except.ok ())

/-- C7 witness: a folders-query failure from the empty state leaves both
lists empty after the single folders query. -/
theorem articulate_c7_witness :
    loadData true ⟨[], []⟩ (Except.error "boom") (Except.ok []) =
      (⟨[], []⟩, [BackendCall.foldersSelect]) :=
  (articulate_c7_load_failure [sampleFolder] "boom" "other" (Except.ok [])).1

/-- C8 witness: with both credentials absent the unnamed revision shows
the blocking configuration screen. -/
theorem articulate_c8_witness :
    appRenderPart000 false = Screen.configRequired :=
  (articulate_c8_config none none).2.2.2.2.1

/-- C9 witness: the tag sidebar of a one-comic gallery has no duplicate
button. -/
theorem articulate_c9_witness : (allTags [sampleComic]).Nodup :=
  (articulate_c9_allTags [sampleComic]).1

/-- C10 witness: a two-file batch with one storage failure still visits
both files, adds exactly the created entry, and ends in success. -/
theorem articulate_c10_witness :
    (handleBulkUpload
        [(FileObj.mk "a.png" "image/png", ItemOutcome.ok sampleNewComic),
         (FileObj.mk "b.png" "image/png", ItemOutcome.storageFail)] []).2 =
      ([sampleNewComic], PublishStep.success) := by
  have h := articulate_c10_bulk_upload
    [(FileObj.mk "a.png" "image/png", ItemOutcome.ok sampleNewComic),
     (FileObj.mk "b.png" "image/png", ItemOutcome.storageFail)] []
    (by decide)
  refine Prod.ext ?_ h.2.2
  rw [h.2.1]
  decide
